import Mathlib

set_option autoImplicit false

/-!
Verification of the fixture-merge engine of `generate_calendar.py`.

The script merges two ICS feeds ("primary", "secondary") into one calendar:
for each feed it runs `add_events_from_calendar`, which keeps only events
whose summary contains the keyword `"Napoli"` (case-insensitively), whose
start year is at least `MIN_YEAR`, optionally only cup events, and — on the
secondary pass — skips events whose UTC date-time key (minute precision) was
already seen.  Accepted events get a cosmetic `"⚽ "` prefix.

Python strings are modelled as `List Char` (the feeds are ASCII apart from
the marker, so ASCII case folding models `str.lower()` faithfully here);
timezone-aware datetimes are modelled as instants already converted to UTC,
so `astimezone(timezone.utc)` is the identity.
-/

namespace NapoliCalendar

/-- A UTC instant, at the precision the script uses: `strftime("%Y-%m-%d %H:%M")`
reads everything down to the minute and drops the seconds. -/
structure DateTime where
  year : Nat
  month : Nat
  day : Nat
  hour : Nat
  minute : Nat
  second : Nat
deriving DecidableEq

/-- An ICS event as the script consumes it: `event.name` (the summary; `[]` when
absent, matching `event.name or ""`) and the optional start instant `event.begin`. -/
structure Event where
  name : List Char
  begin : Option DateTime
deriving DecidableEq

/-- ASCII case folding; models `str.lower()` on the summaries and keyword involved. -/
def lowerChar (c : Char) : Char :=
  if 'A' ≤ c ∧ c ≤ 'Z' then Char.ofNat (c.toNat + 32) else c

def lower (s : List Char) : List Char := s.map lowerChar

def KEYWORD : List Char := "Napoli".data

def MIN_YEAR : Nat := 2025

/-- `get_event_datetime`: the start instant, `None` when `event.begin` is falsy. -/
def get_event_datetime (event : Event) : Option DateTime := event.begin

/-- `get_event_year`: `dt.year if dt is not None else None`. -/
def get_event_year (event : Event) : Option Nat :=
  match get_event_datetime event with
  | none => none
  | some dt => some dt.year

abbrev TimeKey := Nat × Nat × Nat × Nat × Nat

/-- `event_time_key`: dedup key `dt_utc.strftime("%Y-%m-%d %H:%M")`, modelled as the
(year, month, day, hour, minute) tuple; tuple equality coincides with equality of
the formatted strings for in-range field values. -/
def event_time_key (event : Event) : Option TimeKey :=
  match get_event_datetime event with
  | none => none
  | some dt => some (dt.year, dt.month, dt.day, dt.hour, dt.minute)

/-- `is_cup_event`: cup/super-cup recognizer over the lowercased summary. -/
def is_cup_event (name : List Char) : Bool :=
  let s := lower name
  decide ("[cop]".data <:+: s) || decide ("coppa".data <:+: s) ||
    decide ("supercoppa".data <:+: s) || decide ("super cup".data <:+: s)

def marker : List Char := "⚽ ".data

/-- Step 5 of the loop body: `if not name.startswith("⚽ "): event.name = "⚽ " + name`,
as a pure transformation of the event. -/
def label_event (event : Event) : Event :=
  if marker <+: event.name then event else Event.mk (marker ++ event.name) event.begin

/-- One iteration of the loop body of `add_events_from_calendar`, threading the
`(seen_times, final_calendar)` state.  The five numbered steps of the source are
kept in order: keyword test, year test, cup test, dedup-by-time test, labeling
and accumulation (the accepted key is recorded afterwards). -/
def process_event (skip_if_seen cup_only : Bool) (st : List TimeKey × List Event)
    (event : Event) : List TimeKey × List Event :=
  if ¬ (lower KEYWORD <:+: lower event.name) then st
  else
    match get_event_year event with
    | none => st
    | some year =>
      if year < MIN_YEAR then st
      else if cup_only && ! is_cup_event event.name then st
      else
        match event_time_key event with
        | some key =>
          if skip_if_seen = true ∧ key ∈ st.1 then st
          else (key :: st.1, st.2 ++ [label_event event])
        | none => (st.1, st.2 ++ [label_event event])

/-- `add_events_from_calendar`: the loop over `cal.events`, returning the final
`(seen_times, final_calendar)` state.  The accumulated calendar is modelled in
insertion order. -/
def add_events_from_calendar (cal : List Event) (seen_times : List TimeKey)
    (final_calendar : List Event) (skip_if_seen cup_only : Bool) :
    List TimeKey × List Event :=
  match cal with
  | [] => (seen_times, final_calendar)
  | event :: rest =>
    let st := process_event skip_if_seen cup_only (seen_times, final_calendar) event
    add_events_from_calendar rest st.1 st.2 skip_if_seen cup_only

/-- The merge performed by `main`: starting from an empty state, the primary pass
runs with `skip_if_seen=False, cup_only=False`, then the secondary pass runs with
`skip_if_seen=True, cup_only=True` on the resulting state. -/
def merge_feeds (primary secondary : List Event) : List Event :=
  (add_events_from_calendar secondary
    (add_events_from_calendar primary [] [] false false).1
    (add_events_from_calendar primary [] [] false false).2 true true).2

/-- The events accepted by the primary pass. -/
def primary_out (primary : List Event) : List Event :=
  (add_events_from_calendar primary [] [] false false).2

/-- The dedup index after the primary pass. -/
def primary_seen (primary : List Event) : List TimeKey :=
  (add_events_from_calendar primary [] [] false false).1

/-- The events newly accepted by the secondary pass. -/
def secondary_new (primary secondary : List Event) : List Event :=
  (add_events_from_calendar secondary (primary_seen primary) [] true true).2

/-- The keyword test of step 1, as a Boolean predicate on an event. -/
def passes_keyword (event : Event) : Bool :=
  decide (lower KEYWORD <:+: lower event.name)

/-- The year test of step 2, as a Boolean predicate on an event: the start is
present and its year is at least `MIN_YEAR`. -/
def passes_year (event : Event) : Bool :=
  match get_event_year event with
  | none => false
  | some year => decide (MIN_YEAR ≤ year)

/-!
Spec-side definitions.  The specification describes a SignatureBuilder
(date key plus opponent-token set) and a configurable year bound that the
script does not implement; the following `spec_`-prefixed definitions follow
the spec's words so that its duplicate policy and filter configuration can be
compared with the script's behaviour.
-/

/-- Modelled from the spec: letters, for the normalization step that strips every
character that is not a letter or whitespace (the feeds at hand are ASCII, so
ASCII letters suffice). -/
def spec_is_letter (c : Char) : Bool :=
  decide (('a' ≤ c ∧ c ≤ 'z') ∨ ('A' ≤ c ∧ c ≤ 'Z'))

/-- Modelled from the spec: strip parenthesized substrings entirely, tracking the
nesting depth. -/
def spec_strip_parens : List Char → Nat → List Char
  | [], _ => []
  | c :: rest, depth =>
    if c = '(' then spec_strip_parens rest (depth + 1)
    else if c = ')' then spec_strip_parens rest (depth - 1)
    else if depth = 0 then c :: spec_strip_parens rest depth
    else spec_strip_parens rest depth

/-- Modelled from the spec: SignatureBuilder normalization (§4.2 step 1) —
lowercase, dash variants to a separator, parenthesized substrings stripped,
digits and every character that is not a letter or whitespace stripped. -/
def spec_normalize (s : List Char) : List Char :=
  let dashed := (s.map lowerChar).map fun c =>
    if c = '-' ∨ c = '–' ∨ c = '—' then ' ' else c
  (spec_strip_parens dashed 0).filter fun c => spec_is_letter c || c = ' '

/-- Modelled from the spec: the word tokens of a normalized summary (splitting on
whitespace subsumes collapsing and trimming). -/
def spec_words : List Char → List Char → List (List Char)
  | [], acc => if acc = [] then [] else [acc.reverse]
  | c :: rest, acc =>
    if c = ' ' then
      if acc = [] then spec_words rest [] else acc.reverse :: spec_words rest []
    else spec_words rest (c :: acc)

def spec_tokens (s : List Char) : List (List Char) :=
  spec_words (spec_normalize s) []

/-- Modelled from the spec: split a summary at the first occurrence of a separator
pattern, keeping the two sides. -/
def spec_split_at (sep : List Char) : List Char → Option (List Char × List Char)
  | [] => none
  | c :: rest =>
    if sep <+: c :: rest then some ([], (c :: rest).drop sep.length)
    else
      match spec_split_at sep rest with
      | some lr => some (c :: lr.1, lr.2)
      | none => none

/-- Modelled from the spec: a separator succeeds when it splits the summary into
exactly two non-empty parts. -/
def spec_try_separator (sep s : List Char) : Option (List Char × List Char) :=
  match spec_split_at sep s with
  | some lr => if lr.1 ≠ [] ∧ lr.2 ≠ [] then some lr else none
  | none => none

/-- Modelled from the spec: scan the original summary for the ordered separator
patterns ` vs `, ` v `, ` - `, `-`, preferring the first that splits it into two
non-empty parts (§4.2 step 2). -/
def spec_split (s : List Char) : Option (List Char × List Char) :=
  match spec_try_separator " vs ".data s with
  | some lr => some lr
  | none =>
    match spec_try_separator " v ".data s with
    | some lr => some lr
    | none =>
      match spec_try_separator " - ".data s with
      | some lr => some lr
      | none => spec_try_separator "-".data s

/-- Modelled from the spec: `team_tokens` — the token set of the two split sides
(or of the whole normalized summary when no separator splits cleanly), with the
subject-team token removed (§4.2 steps 2–3). -/
def spec_team_tokens (summary : List Char) : List (List Char) :=
  let subject := lower KEYWORD
  match spec_split summary with
  | some lr => (spec_tokens lr.1 ++ spec_tokens lr.2).filter fun t => decide (t ≠ subject)
  | none => (spec_tokens summary).filter fun t => decide (t ≠ subject)

/-- Modelled from the spec: `date_key` — the UTC calendar date of `start`, absent
when `start` is absent (§4.2 step 4). -/
def spec_date_key (event : Event) : Option (Nat × Nat × Nat) :=
  match event.begin with
  | none => none
  | some dt => some (dt.year, dt.month, dt.day)

/-- Modelled from the spec: EventFilter's year-bound configuration — a
minimum-year bound or, mutually exclusively, an excluded-year bound (§6). -/
structure YearConfig where
  minimum_year : Option Nat
  excluded_year : Option Nat

/-- Modelled from the spec: the configurable year test of EventFilter (§4.1) —
with a minimum-year bound, fixtures with an absent start or a year below the
bound are excluded; with an excluded-year bound, fixtures in that year are
excluded.  The script itself hard-codes only the minimum-year direction
(`MIN_YEAR`); the excluded-year direction is absent from the source. -/
def spec_year_test (cfg : YearConfig) (year : Option Nat) : Bool :=
  match cfg.minimum_year with
  | some m =>
    match year with
    | none => false
    | some y => decide (m ≤ y)
  | none =>
    match cfg.excluded_year with
    | some x =>
      match year with
      | none => true
      | some y => decide (y ≠ x)
    | none => true

/-!
Concrete fixtures used by the scenario theorems, counterexamples and witnesses.
-/

/-- Scenario A, primary fixture: `"Napoli - Inter"` at 2025-09-10T18:00Z. -/
def scenarioA_primary : Event :=
  Event.mk "Napoli - Inter".data (some (DateTime.mk 2025 9 10 18 0 0))

/-- Scenario A, secondary fixture: `"Inter v Napoli"` at 2025-09-10T18:00Z. -/
def scenarioA_secondary : Event :=
  Event.mk "Inter v Napoli".data (some (DateTime.mk 2025 9 10 18 0 0))

/-- A primary fixture: `"Napoli - Inter"` at 2025-09-10T18:00Z. -/
def cex_primary : Event :=
  Event.mk "Napoli - Inter".data (some (DateTime.mk 2025 9 10 18 0 0))

/-- A secondary cup fixture against the same opponent on the same date but two
hours later: `"Napoli - Inter [COP]"` at 2025-09-10T20:00Z. -/
def cex_secondary : Event :=
  Event.mk "Napoli - Inter [COP]".data (some (DateTime.mk 2025 9 10 20 0 0))

/-- Scenario D, secondary fixture: an in-range subject-team fixture that is not a
cup event. -/
def scenarioD_secondary : Event :=
  Event.mk "Napoli - Inter".data (some (DateTime.mk 2025 9 10 18 0 0))

/-- A valid secondary cup fixture, in range. -/
def cup_fixture : Event :=
  Event.mk "Napoli - Modena FC [COP]".data (some (DateTime.mk 2025 1 5 20 0 0))

/-- A secondary cup fixture in the same UTC minute as `cex_primary`, differing
only in the seconds field. -/
def cup_same_minute : Event :=
  Event.mk "Napoli - Inter [COP]".data (some (DateTime.mk 2025 9 10 18 0 30))

/-!
Helper lemmas about the loop body and the pass over one calendar.
-/

theorem label_event_begin (e : Event) : (label_event e).begin = e.begin := by
  unfold label_event
  split <;> rfl

theorem event_time_key_label (e : Event) :
    event_time_key (label_event e) = event_time_key e := by
  unfold event_time_key get_event_datetime
  rw [label_event_begin]

theorem get_event_year_label (e : Event) :
    get_event_year (label_event e) = get_event_year e := by
  unfold get_event_year get_event_datetime
  rw [label_event_begin]

theorem passes_year_label (e : Event) :
    passes_year (label_event e) = passes_year e := by
  unfold passes_year
  rw [get_event_year_label]

theorem lower_append (s t : List Char) : lower (s ++ t) = lower s ++ lower t := by
  unfold lower
  exact List.map_append lowerChar s t

theorem passes_keyword_label (e : Event) (h : passes_keyword e = true) :
    passes_keyword (label_event e) = true := by
  unfold passes_keyword at h ⊢
  rw [decide_eq_true_eq] at h ⊢
  unfold label_event
  split
  · exact h
  · show lower KEYWORD <:+: lower (marker ++ e.name)
    rw [lower_append]
    obtain ⟨s, t, hst⟩ := h
    exact ⟨lower marker ++ s, t, by rw [← hst]; simp [List.append_assoc]⟩

theorem passes_year_begin (e : Event) (h : passes_year e = true) :
    ∃ dt, e.begin = some dt ∧ MIN_YEAR ≤ dt.year := by
  unfold passes_year get_event_year get_event_datetime at h
  cases hb : e.begin with
  | none => rw [hb] at h; exact absurd h (by simp)
  | some dt =>
    rw [hb] at h
    simp only [decide_eq_true_eq] at h
    exact ⟨dt, rfl, h⟩

/-- Case analysis on one loop iteration: the event is either rejected (state kept)
or accepted, in which case it passed the keyword, year and (if requested) cup
tests, its time key exists and — when deduplication is on — was not in the index,
the labeled event is appended and the key is recorded. -/
theorem process_event_cases (sk c : Bool) (st : List TimeKey × List Event) (e : Event) :
    process_event sk c st e = st ∨
    (passes_keyword e = true ∧ passes_year e = true ∧
      (c = true → is_cup_event e.name = true) ∧
      ∃ key, event_time_key e = some key ∧ (sk = true → key ∉ st.1) ∧
        process_event sk c st e = (key :: st.1, st.2 ++ [label_event e])) := by
  unfold process_event
  by_cases hkw : lower KEYWORD <:+: lower e.name
  · rw [if_neg (not_not_intro hkw)]
    cases hyr : get_event_year e with
    | none => exact Or.inl rfl
    | some year =>
      dsimp only
      by_cases hy : year < MIN_YEAR
      · rw [if_pos hy]; exact Or.inl rfl
      · rw [if_neg hy]
        by_cases hc : (c && ! is_cup_event e.name) = true
        · rw [if_pos hc]; exact Or.inl rfl
        · rw [if_neg hc]
          have hbk : event_time_key e = some (match e.begin with
              | none => (0, 0, 0, 0, 0)
              | some dt => (dt.year, dt.month, dt.day, dt.hour, dt.minute)) := by
            unfold event_time_key get_event_datetime
            unfold get_event_year get_event_datetime at hyr
            cases hb : e.begin with
            | none => rw [hb] at hyr; exact absurd hyr (by simp)
            | some dt => rfl
          rw [hbk]
          dsimp only
          by_cases hsk : sk = true ∧ (match e.begin with
              | none => ((0, 0, 0, 0, 0) : TimeKey)
              | some dt => (dt.year, dt.month, dt.day, dt.hour, dt.minute)) ∈ st.1
          · rw [if_pos hsk]; exact Or.inl rfl
          · rw [if_neg hsk]
            refine Or.inr ⟨?_, ?_, ?_, _, rfl, ?_, rfl⟩
            · unfold passes_keyword
              exact decide_eq_true hkw
            · unfold passes_year
              rw [hyr]
              exact decide_eq_true (Nat.le_of_not_lt hy)
            · intro hct
              subst hct
              simpa using hc
            · intro hskt hmem
              exact hsk ⟨hskt, hmem⟩
  · rw [if_pos hkw]
    exact Or.inl rfl

/-- Completeness of one loop iteration: an event passing the keyword, year and
cup tests whose key is not blocked by the index is accepted. -/
theorem process_event_accept (sk c : Bool) (st : List TimeKey × List Event) (e : Event)
    (hkw : passes_keyword e = true) (hyr : passes_year e = true)
    (hc : c = true → is_cup_event e.name = true)
    (hsk : ∀ key, event_time_key e = some key → sk = true → key ∉ st.1) :
    ∃ key, event_time_key e = some key ∧
      process_event sk c st e = (key :: st.1, st.2 ++ [label_event e]) := by
  obtain ⟨dt, hb, hy⟩ := passes_year_begin e hyr
  have hbk : event_time_key e = some (dt.year, dt.month, dt.day, dt.hour, dt.minute) := by
    unfold event_time_key get_event_datetime
    rw [hb]
  unfold process_event
  rw [if_neg (not_not_intro (of_decide_eq_true hkw))]
  have hyr2 : get_event_year e = some dt.year := by
    unfold get_event_year get_event_datetime
    rw [hb]
  rw [hyr2]
  dsimp only
  rw [if_neg (Nat.not_lt.mpr hy)]
  have hcup : (c && ! is_cup_event e.name) = false := by
    cases c with
    | false => rfl
    | true => rw [hc rfl]; rfl
  rw [if_neg (by simp [hcup])]
  rw [hbk]
  dsimp only
  rw [if_neg (fun hmem => hsk _ hbk hmem.1 hmem.2)]
  exact ⟨_, rfl, rfl⟩

/-- A deduplicating iteration whose event's key is already in the index keeps the
state unchanged. -/
theorem process_event_skips (c : Bool) (st : List TimeKey × List Event) (e : Event)
    (k : TimeKey) (hk : event_time_key e = some k) (hmem : k ∈ st.1) :
    process_event true c st e = st := by
  rcases process_event_cases true c st e with h | ⟨_, _, _, key, hkey, hnot, _⟩
  · exact h
  · rw [hk] at hkey
    cases Option.some.inj hkey
    exact absurd hmem (hnot rfl)

theorem process_event_seen_mono (sk c : Bool) (st : List TimeKey × List Event)
    (e : Event) (k : TimeKey) (h : k ∈ st.1) :
    k ∈ (process_event sk c st e).1 := by
  rcases process_event_cases sk c st e with heq | ⟨_, _, _, key, _, _, heq⟩
  · rw [heq]; exact h
  · rw [heq]; exact List.mem_cons_of_mem key h

theorem process_event_out_le (sk c : Bool) (st : List TimeKey × List Event) (e : Event) :
    st.2 <+: (process_event sk c st e).2 := by
  rcases process_event_cases sk c st e with heq | ⟨_, _, _, key, _, _, heq⟩
  · rw [heq]
  · rw [heq]; exact ⟨[label_event e], rfl⟩

/-- The accumulated calendar only grows during a pass. -/
theorem add_events_out_le (cal : List Event) (seen : List TimeKey) (fin : List Event)
    (sk c : Bool) :
    fin <+: (add_events_from_calendar cal seen fin sk c).2 := by
  induction cal generalizing seen fin with
  | nil => exact List.prefix_rfl
  | cons ev rest ih =>
    show fin <+: (add_events_from_calendar rest _ _ sk c).2
    exact List.IsPrefix.trans (process_event_out_le sk c (seen, fin) ev)
      (ih (process_event sk c (seen, fin) ev).1 (process_event sk c (seen, fin) ev).2)

/-- The dedup index only grows during a pass. -/
theorem add_events_seen_mono (cal : List Event) (seen : List TimeKey) (fin : List Event)
    (sk c : Bool) (k : TimeKey) (h : k ∈ seen) :
    k ∈ (add_events_from_calendar cal seen fin sk c).1 := by
  induction cal generalizing seen fin with
  | nil => exact h
  | cons ev rest ih =>
    show k ∈ (add_events_from_calendar rest _ _ sk c).1
    exact ih (process_event sk c (seen, fin) ev).1 (process_event sk c (seen, fin) ev).2
      (process_event_seen_mono sk c (seen, fin) ev k h)

/-- Soundness of one pass: every event of the final calendar was already there,
or is the labeling of a feed event that passed the keyword, year and (if
requested) cup tests and — when deduplication is on — whose time key was not in
the index the pass started from. -/
theorem add_events_sound (cal : List Event) (seen : List TimeKey) (fin : List Event)
    (sk c : Bool) (e : Event) (h : e ∈ (add_events_from_calendar cal seen fin sk c).2) :
    e ∈ fin ∨ ∃ e₀, e₀ ∈ cal ∧ e = label_event e₀ ∧ passes_keyword e₀ = true ∧
      passes_year e₀ = true ∧ (c = true → is_cup_event e₀.name = true) ∧
      (sk = true → ∀ k, event_time_key e₀ = some k → k ∉ seen) := by
  induction cal generalizing seen fin with
  | nil => exact Or.inl h
  | cons ev rest ih =>
    have h' : e ∈ (add_events_from_calendar rest (process_event sk c (seen, fin) ev).1
        (process_event sk c (seen, fin) ev).2 sk c).2 := h
    rcases ih (process_event sk c (seen, fin) ev).1 (process_event sk c (seen, fin) ev).2 h' with
      hin | ⟨e₀, hmem, hlab, hkw, hyr, hcup, hsk⟩
    · rcases process_event_cases sk c (seen, fin) ev with heq | ⟨hkw, hyr, hcup, key, hk, hnot, heq⟩
      · rw [heq] at hin
        exact Or.inl hin
      · rw [heq] at hin
        rcases List.mem_append.1 hin with hfin | hone
        · exact Or.inl hfin
        · refine Or.inr ⟨ev, List.mem_cons_self ev rest, (List.mem_singleton.1 hone), hkw, hyr,
            hcup, ?_⟩
          intro hskt k hk'
          rw [hk] at hk'
          cases Option.some.inj hk'
          exact hnot hskt
    · refine Or.inr ⟨e₀, List.mem_cons_of_mem ev hmem, hlab, hkw, hyr, hcup, ?_⟩
      intro hskt k hk' hkseen
      exact hsk hskt k hk' (process_event_seen_mono sk c (seen, fin) ev k hkseen)

/-- Completeness of a non-deduplicating pass: every feed event passing the
keyword, year and (if requested) cup tests is accepted, whatever the index
holds. -/
theorem add_events_complete (cal : List Event) (seen : List TimeKey) (fin : List Event)
    (c : Bool) (e₀ : Event) (hmem : e₀ ∈ cal) (hkw : passes_keyword e₀ = true)
    (hyr : passes_year e₀ = true) (hcup : c = true → is_cup_event e₀.name = true) :
    label_event e₀ ∈ (add_events_from_calendar cal seen fin false c).2 := by
  induction cal generalizing seen fin with
  | nil => exact absurd hmem (List.not_mem_nil e₀)
  | cons ev rest ih =>
    show label_event e₀ ∈ (add_events_from_calendar rest _ _ false c).2
    rcases List.mem_cons.1 hmem with heq | hrest
    · subst heq
      obtain ⟨key, _, hst⟩ := process_event_accept false c (seen, fin) e₀ hkw hyr hcup
        (fun _ _ hfalse => absurd hfalse (by simp))
      rw [hst]
      refine List.IsPrefix.subset (add_events_out_le rest _ _ false c) ?_
      exact List.mem_append.2 (Or.inr (List.mem_singleton.2 rfl))
    · exact ih (process_event false c (seen, fin) ev).1
        (process_event false c (seen, fin) ev).2 hrest

/-- The time key of every event the pass newly accepted ends up in the index. -/
theorem add_events_keys (cal : List Event) (seen : List TimeKey) (fin : List Event)
    (sk c : Bool) (e : Event) (k : TimeKey)
    (h : e ∈ (add_events_from_calendar cal seen fin sk c).2)
    (hk : event_time_key e = some k) :
    e ∈ fin ∨ k ∈ (add_events_from_calendar cal seen fin sk c).1 := by
  induction cal generalizing seen fin with
  | nil => exact Or.inl h
  | cons ev rest ih =>
    have h' : e ∈ (add_events_from_calendar rest (process_event sk c (seen, fin) ev).1
        (process_event sk c (seen, fin) ev).2 sk c).2 := h
    rcases ih (process_event sk c (seen, fin) ev).1 (process_event sk c (seen, fin) ev).2 h' with
      hin | hkey
    · rcases process_event_cases sk c (seen, fin) ev with heq | ⟨_, _, _, key, hke, _, heq⟩
      · rw [heq] at hin
        exact Or.inl hin
      · rw [heq] at hin
        rcases List.mem_append.1 hin with hfin | hone
        · exact Or.inl hfin
        · have he : e = label_event ev := List.mem_singleton.1 hone
          have : event_time_key e = some key := by rw [he, event_time_key_label, hke]
          rw [hk] at this
          cases Option.some.inj this
          refine Or.inr (add_events_seen_mono rest _ _ sk c k ?_)
          rw [heq]
          exact List.mem_cons_self k seen
    · exact Or.inr hkey

/-- The loop body treats the accumulated calendar as a pure accumulator: running
it on `fin` equals running it on `[]` and prepending `fin`. -/
theorem process_event_append (sk c : Bool) (seen : List TimeKey) (fin : List Event)
    (e : Event) :
    process_event sk c (seen, fin) e =
      ((process_event sk c (seen, []) e).1, fin ++ (process_event sk c (seen, []) e).2) := by
  unfold process_event
  by_cases hkw : lower KEYWORD <:+: lower e.name
  · simp only [hkw, not_true, if_false]
    cases hyr : get_event_year e with
    | none => simp
    | some year =>
      dsimp only
      by_cases hy : year < MIN_YEAR
      · simp [hy]
      · simp only [hy, if_false]
        by_cases hc : (c && ! is_cup_event e.name) = true
        · simp [hc]
        · simp only [hc, if_false]
          cases hk : event_time_key e with
          | none => simp
          | some key =>
            dsimp only
            by_cases hsk : sk = true ∧ key ∈ seen
            · simp [hsk]
            · simp [hsk]
  · simp [hkw]

/-- A whole pass treats the accumulated calendar as a pure accumulator. -/
theorem add_events_append (cal : List Event) (seen : List TimeKey) (fin : List Event)
    (sk c : Bool) :
    (add_events_from_calendar cal seen fin sk c).1 =
        (add_events_from_calendar cal seen [] sk c).1 ∧
      (add_events_from_calendar cal seen fin sk c).2 =
        fin ++ (add_events_from_calendar cal seen [] sk c).2 := by
  induction cal generalizing seen fin with
  | nil =>
    refine ⟨rfl, ?_⟩
    show fin = fin ++ []
    simp
  | cons ev rest ih =>
    have h1 : add_events_from_calendar (ev :: rest) seen fin sk c
        = add_events_from_calendar rest (process_event sk c (seen, fin) ev).1
            (process_event sk c (seen, fin) ev).2 sk c := rfl
    have h2 : add_events_from_calendar (ev :: rest) seen [] sk c
        = add_events_from_calendar rest (process_event sk c (seen, []) ev).1
            (process_event sk c (seen, []) ev).2 sk c := rfl
    rw [h1, h2, process_event_append sk c seen fin ev]
    dsimp only
    obtain ⟨ia, ib⟩ := ih (process_event sk c (seen, []) ev).1
      (fin ++ (process_event sk c (seen, []) ev).2)
    obtain ⟨ja, jb⟩ := ih (process_event sk c (seen, []) ev).1
      (process_event sk c (seen, []) ev).2
    constructor
    · rw [ia, ja]
    · rw [ib, jb, List.append_assoc]

/-- The final calendar is the primary pass's output followed by the events the
secondary pass newly accepted. -/
theorem merge_feeds_eq (primary secondary : List Event) :
    merge_feeds primary secondary = primary_out primary ++ secondary_new primary secondary := by
  unfold merge_feeds primary_out secondary_new primary_seen
  exact (add_events_append secondary (add_events_from_calendar primary [] [] false false).1
    (add_events_from_calendar primary [] [] false false).2 true true).2

/-- Every event of the final calendar is a labeled feed event that passed the
keyword test and the year test. -/
theorem merge_feeds_sound (primary secondary : List Event) (e : Event)
    (h : e ∈ merge_feeds primary secondary) :
    ∃ e₀, e = label_event e₀ ∧ passes_keyword e₀ = true ∧ passes_year e₀ = true := by
  unfold merge_feeds at h
  rcases add_events_sound secondary _ _ true true e h with hin | ⟨e₀, _, hlab, hkw, hyr, _⟩
  · rcases add_events_sound primary [] [] false false e hin with
      habs | ⟨e₀, _, hlab, hkw, hyr, _⟩
    · exact absurd habs (List.not_mem_nil e)
    · exact ⟨e₀, hlab, hkw, hyr⟩
  · exact ⟨e₀, hlab, hkw, hyr⟩

theorem passes_year_of (e : Event) (dt : DateTime) (hb : e.begin = some dt)
    (hy : MIN_YEAR ≤ dt.year) : passes_year e = true := by
  unfold passes_year get_event_year get_event_datetime
  rw [hb]
  dsimp only
  exact decide_eq_true hy

theorem event_time_key_of (e : Event) (dt : DateTime) (hb : e.begin = some dt) :
    event_time_key e = some (dt.year, dt.month, dt.day, dt.hour, dt.minute) := by
  unfold event_time_key get_event_datetime
  rw [hb]

/-!
Claim theorems.
-/

/-- C1 (counterexample): the script does not deduplicate by the spec's signature
(`date_key` plus intersecting `team_tokens`).  The primary fixture
`"Napoli - Inter"` at 2025-09-10T18:00Z and the secondary cup fixture
`"Napoli - Inter [COP]"` at 2025-09-10T20:00Z share the date key and the
opponent token `"inter"`, yet both survive into the merged output, refuting
"at most one of the pair is present". -/
theorem claim_C1_counterexample :
    spec_date_key cex_primary = spec_date_key cex_secondary ∧
    "inter".data ∈ spec_team_tokens cex_primary.name ∧
    "inter".data ∈ spec_team_tokens cex_secondary.name ∧
    label_event cex_primary ∈ merge_feeds [cex_primary] [cex_secondary] ∧
    label_event cex_secondary ∈ merge_feeds [cex_primary] [cex_secondary] ∧
    label_event cex_primary ≠ label_event cex_secondary := by decide

/-- C1 (amended): the deduplication the script does guarantee is keyed on the UTC
date-and-minute `event_time_key`: the merged output is the accepted primary
fixtures followed by the newly accepted secondary fixtures, and no accepted
secondary fixture shares a time key with an accepted primary fixture — of such a
pair only the primary one is present. -/
theorem claim_C1_amended :
    (∀ (primary secondary : List Event),
      merge_feeds primary secondary = primary_out primary ++ secondary_new primary secondary) ∧
    (∀ (primary secondary : List Event) (e₁ e₂ : Event) (k : TimeKey),
      e₁ ∈ primary_out primary → e₂ ∈ secondary_new primary secondary →
      event_time_key e₁ = some k → ¬ event_time_key e₂ = some k) := by
  constructor
  · exact merge_feeds_eq
  · intro primary secondary e₁ e₂ k h1 h2 hk1 hk2
    have hks : k ∈ primary_seen primary := by
      unfold primary_out at h1
      unfold primary_seen
      rcases add_events_keys primary [] [] false false e₁ k h1 hk1 with habs | h
      · exact absurd habs (List.not_mem_nil e₁)
      · exact h
    unfold secondary_new at h2
    rcases add_events_sound secondary (primary_seen primary) [] true true e₂ h2 with
      habs | ⟨e₀, _, hlab, _, _, _, hsk⟩
    · exact absurd habs (List.not_mem_nil e₂)
    · have hk0 : event_time_key e₀ = some k := by
        rw [← event_time_key_label e₀, ← hlab]
        exact hk2
      exact hsk rfl k hk0 hks

/-- C1 (amended, witness): instantiated on the counterexample pair — the two
fixtures carry different time keys, so both being present is consistent with the
amended statement. -/
theorem claim_C1_amended_witness :
    merge_feeds [cex_primary] [cex_secondary] =
      primary_out [cex_primary] ++ secondary_new [cex_primary] [cex_secondary] ∧
    label_event cex_primary ∈ primary_out [cex_primary] ∧
    label_event cex_secondary ∈ secondary_new [cex_primary] [cex_secondary] ∧
    event_time_key (label_event cex_primary) = some (2025, 9, 10, 18, 0) ∧
    ¬ event_time_key (label_event cex_secondary) = some (2025, 9, 10, 18, 0) :=
  ⟨claim_C1_amended.1 [cex_primary] [cex_secondary], by decide, by decide, by decide,
    claim_C1_amended.2 [cex_primary] [cex_secondary] (label_event cex_primary)
      (label_event cex_secondary) (2025, 9, 10, 18, 0) (by decide) (by decide) (by decide)⟩

/-- C2: every primary-feed fixture passing the keyword and year tests is accepted
into the merged output (the primary pass runs with `cup_only=False`), and a pass
with `skip_if_seen=False` accepts every fixture passing those tests whatever the
dedup index or accumulated calendar contain — it never rejects on duplicate
grounds. -/
theorem claim_C2_primary_supremacy :
    (∀ (primary secondary : List Event) (e : Event), e ∈ primary →
      passes_keyword e = true → passes_year e = true →
      label_event e ∈ merge_feeds primary secondary) ∧
    (∀ (cal : List Event) (seen : List TimeKey) (fin : List Event) (e : Event),
      e ∈ cal → passes_keyword e = true → passes_year e = true →
      label_event e ∈ (add_events_from_calendar cal seen fin false false).2) := by
  constructor
  · intro primary secondary e hmem hkw hyr
    have h1 : label_event e ∈ primary_out primary :=
      add_events_complete primary [] [] false e hmem hkw hyr
        (fun h => absurd h Bool.false_ne_true)
    rw [merge_feeds_eq]
    exact List.mem_append.2 (Or.inl h1)
  · intro cal seen fin e hmem hkw hyr
    exact add_events_complete cal seen fin false e hmem hkw hyr
      (fun h => absurd h Bool.false_ne_true)

/-- C2 (witness): a concrete in-range primary fixture is accepted. -/
theorem claim_C2_witness :
    cup_fixture ∈ [cup_fixture] ∧ passes_keyword cup_fixture = true ∧
    passes_year cup_fixture = true ∧
    label_event cup_fixture ∈ merge_feeds [cup_fixture] [] :=
  ⟨by decide, by decide, by decide,
    claim_C2_primary_supremacy.1 [cup_fixture] [] cup_fixture (by decide) (by decide)
      (by decide)⟩

/-- C4: every fixture in the merged output passed the year test — so a fixture
with an absent start, or a start year below the configured minimum `MIN_YEAR`,
is absent from the output; and in the spec's configurable year test the
minimum-year direction excludes absent or below-minimum years while the
excluded-year direction excludes exactly the configured year. -/
theorem claim_C4_filter_correctness :
    (∀ (primary secondary : List Event) (e : Event), e ∈ merge_feeds primary secondary →
      passes_year e = true) ∧
    (∀ m y : Nat, y < m → spec_year_test (YearConfig.mk (some m) none) (some y) = false) ∧
    (∀ m : Nat, spec_year_test (YearConfig.mk (some m) none) none = false) ∧
    (∀ x : Nat, spec_year_test (YearConfig.mk none (some x)) (some x) = false) := by
  refine ⟨?_, ?_, ?_, ?_⟩
  · intro primary secondary e hmem
    obtain ⟨e₀, hlab, _, hyr⟩ := merge_feeds_sound primary secondary e hmem
    rw [hlab, passes_year_label]
    exact hyr
  · intro m y h
    simp [spec_year_test, Nat.not_le.2 h]
  · intro m
    rfl
  · intro x
    simp [spec_year_test]

/-- C4 (witness): concrete instantiations of all four parts. -/
theorem claim_C4_witness :
    label_event cup_fixture ∈ merge_feeds [cup_fixture] [] ∧
    passes_year (label_event cup_fixture) = true ∧
    2024 < 2025 ∧
    spec_year_test (YearConfig.mk (some 2025) none) (some 2024) = false ∧
    spec_year_test (YearConfig.mk (some 2025) none) none = false ∧
    spec_year_test (YearConfig.mk none (some 2024)) (some 2024) = false :=
  ⟨by decide,
    claim_C4_filter_correctness.1 [cup_fixture] [] (label_event cup_fixture) (by decide),
    by decide,
    claim_C4_filter_correctness.2.1 2025 2024 (by decide),
    claim_C4_filter_correctness.2.2.1 2025,
    claim_C4_filter_correctness.2.2.2 2024⟩

/-- C5: every fixture in the merged output contains the subject-team keyword as a
case-insensitive substring of its summary — contrapositively, a fixture whose
summary (empty or not) lacks the keyword never appears, from either feed. -/
theorem claim_C5_keyword_necessity :
    ∀ (primary secondary : List Event) (e : Event), e ∈ merge_feeds primary secondary →
      passes_keyword e = true := by
  intro primary secondary e hmem
  obtain ⟨e₀, hlab, hkw, _⟩ := merge_feeds_sound primary secondary e hmem
  rw [hlab]
  exact passes_keyword_label e₀ hkw

/-- C5 (witness): concrete instantiation on a one-fixture merge. -/
theorem claim_C5_witness :
    label_event cup_fixture ∈ merge_feeds [cup_fixture] [] ∧
    passes_keyword (label_event cup_fixture) = true :=
  ⟨by decide,
    claim_C5_keyword_necessity [cup_fixture] [] (label_event cup_fixture) (by decide)⟩

/-- C6: the Presentation labeling step is idempotent — applying the
prefix-labeling transformation twice yields the same event as applying it once;
a summary already beginning with the marker prefix is left unchanged. -/
theorem claim_C6_label_idempotent : ∀ e : Event, label_event (label_event e) = label_event e := by
  intro e
  unfold label_event
  by_cases h : marker <+: e.name
  · rw [if_pos h, if_pos h]
  · rw [if_neg h]
    dsimp only
    exact if_pos ( List.prefix_append marker e.name)

/-- C7 (Scenario A): with primary `"Napoli - Inter"` and secondary
`"Inter v Napoli"` both at 2025-09-10T18:00Z, the merged output is exactly the
primary fixture with its summary marker-prefixed. -/
theorem claim_C7_scenarioA :
    merge_feeds [scenarioA_primary] [scenarioA_secondary] = [label_event scenarioA_primary] ∧
    label_event scenarioA_primary =
      Event.mk "⚽ Napoli - Inter".data (some (DateTime.mk 2025 9 10 18 0 0)) := by decide

/-- C8 (counterexample): with an empty primary feed and a secondary feed holding
one fixture that contains the keyword and is in year range but is not a cup
event, the merged output is empty, not that one fixture — the secondary pass
runs with `cup_only=True`. -/
theorem claim_C8_counterexample :
    passes_keyword scenarioD_secondary = true ∧
    passes_year scenarioD_secondary = true ∧
    merge_feeds [] [scenarioD_secondary] = [] := by decide

/-- C8 (amended): with an empty primary feed, a secondary fixture that contains
the keyword, is in year range and is recognized as a cup event is the sole
(labeled) fixture of the output. -/
theorem claim_C8_amended :
    ∀ e : Event, passes_keyword e = true → passes_year e = true →
      is_cup_event e.name = true → merge_feeds [] [e] = [label_event e] := by
  intro e hkw hyr hcup
  unfold merge_feeds
  obtain ⟨key, hk, hst⟩ := process_event_accept true true ([], []) e hkw hyr (fun _ => hcup)
    (fun k _ _ => List.not_mem_nil k)
  show (add_events_from_calendar []
      (process_event true true ([], []) e).1
      (process_event true true ([], []) e).2 true true).2 = [label_event e]
  rw [hst]
  rfl

/-- C8 (amended, witness): a concrete secondary cup fixture is kept on its own. -/
theorem claim_C8_amended_witness :
    passes_keyword cup_fixture = true ∧ passes_year cup_fixture = true ∧
    is_cup_event cup_fixture.name = true ∧
    merge_feeds [] [cup_fixture] = [label_event cup_fixture] :=
  ⟨by decide, by decide, by decide,
    claim_C8_amended cup_fixture (by decide) (by decide) (by decide)⟩

/-- C9: deduplication is at UTC-minute granularity — the time key ignores the
seconds field; a secondary fixture in the same UTC minute as an accepted primary
fixture is rejected; and a secondary fixture on the same calendar date but in a
different UTC minute is kept alongside the primary one, whatever the summaries. -/
theorem claim_C9_minute_granularity :
    (∀ (n₁ n₂ : List Char) (y mo d h mi s₁ s₂ : Nat),
      event_time_key (Event.mk n₁ (some (DateTime.mk y mo d h mi s₁))) =
        event_time_key (Event.mk n₂ (some (DateTime.mk y mo d h mi s₂)))) ∧
    (∀ (e₁ e₂ : Event) (d₁ d₂ : DateTime),
      e₁.begin = some d₁ → e₂.begin = some d₂ →
      passes_keyword e₁ = true → MIN_YEAR ≤ d₁.year →
      passes_keyword e₂ = true → is_cup_event e₂.name = true →
      d₁.year = d₂.year → d₁.month = d₂.month → d₁.day = d₂.day →
      d₁.hour = d₂.hour → d₁.minute = d₂.minute →
      merge_feeds [e₁] [e₂] = [label_event e₁]) ∧
    (∀ (e₁ e₂ : Event) (d₁ d₂ : DateTime),
      e₁.begin = some d₁ → e₂.begin = some d₂ →
      passes_keyword e₁ = true → MIN_YEAR ≤ d₁.year →
      passes_keyword e₂ = true → MIN_YEAR ≤ d₂.year → is_cup_event e₂.name = true →
      d₁.year = d₂.year → d₁.month = d₂.month → d₁.day = d₂.day →
      ¬ (d₁.hour = d₂.hour ∧ d₁.minute = d₂.minute) →
      merge_feeds [e₁] [e₂] = [label_event e₁, label_event e₂]) := by
  refine ⟨?_, ?_, ?_⟩
  · intro n₁ n₂ y mo d h mi s₁ s₂
    rfl
  · intro e₁ e₂ d₁ d₂ hb1 hb2 hkw1 hy1 hkw2 hcup2 hY hM hD hH hMi
    obtain ⟨k1, hk1, hst1⟩ := process_event_accept false false ([], []) e₁ hkw1
      (passes_year_of e₁ d₁ hb1 hy1) (fun h => absurd h Bool.false_ne_true)
      (fun k _ h => absurd h Bool.false_ne_true)
    unfold merge_feeds
    have h1 : add_events_from_calendar [e₁] [] [] false false
        = process_event false false ([], []) e₁ := rfl
    rw [h1, hst1]
    dsimp only
    have hk2 : event_time_key e₂ = some k1 := by
      rw [event_time_key_of e₂ d₂ hb2]
      rw [event_time_key_of e₁ d₁ hb1] at hk1
      cases Option.some.inj hk1
      rw [hY, hM, hD, hH, hMi]
    have h2 : add_events_from_calendar [e₂] [k1] ([] ++ [label_event e₁]) true true
        = process_event true true ([k1], [] ++ [label_event e₁]) e₂ := rfl
    rw [h2, process_event_skips true ([k1], [] ++ [label_event e₁]) e₂ k1 hk2
      (List.mem_singleton.2 rfl)]
    rfl
  · intro e₁ e₂ d₁ d₂ hb1 hb2 hkw1 hy1 hkw2 hy2 hcup2 hY hM hD hne
    obtain ⟨k1, hk1, hst1⟩ := process_event_accept false false ([], []) e₁ hkw1
      (passes_year_of e₁ d₁ hb1 hy1) (fun h => absurd h Bool.false_ne_true)
      (fun k _ h => absurd h Bool.false_ne_true)
    unfold merge_feeds
    have h1 : add_events_from_calendar [e₁] [] [] false false
        = process_event false false ([], []) e₁ := rfl
    rw [h1, hst1]
    dsimp only
    have hk1' : k1 = (d₁.year, d₁.month, d₁.day, d₁.hour, d₁.minute) := by
      rw [event_time_key_of e₁ d₁ hb1] at hk1
      exact (Option.some.inj hk1).symm
    obtain ⟨k2, hk2, hst2⟩ := process_event_accept true true ([k1], [] ++ [label_event e₁]) e₂
      hkw2 (passes_year_of e₂ d₂ hb2 hy2) (fun _ => hcup2)
      (fun k hkk _ hmem => by
        rw [event_time_key_of e₂ d₂ hb2] at hkk
        cases Option.some.inj hkk
        rw [hk1'] at hmem
        have heq := List.mem_singleton.1 hmem
        simp only [Prod.mk.injEq] at heq
        exact hne ⟨heq.2.2.2.1.symm, heq.2.2.2.2.symm⟩)
    have h2 : add_events_from_calendar [e₂] [k1] ([] ++ [label_event e₁]) true true
        = process_event true true ([k1], [] ++ [label_event e₁]) e₂ := rfl
    rw [h2, hst2]
    rfl

/-- C9 (witness): seconds 0 and 59 give the same key; a same-minute secondary cup
fixture is rejected; a same-date different-hour one is kept. -/
theorem claim_C9_witness :
    event_time_key (Event.mk [] (some (DateTime.mk 2025 9 10 18 0 0))) =
      event_time_key (Event.mk [] (some (DateTime.mk 2025 9 10 18 0 59))) ∧
    merge_feeds [cex_primary] [cup_same_minute] = [label_event cex_primary] ∧
    merge_feeds [cex_primary] [cex_secondary] =
      [label_event cex_primary, label_event cex_secondary] :=
  ⟨claim_C9_minute_granularity.1 [] [] 2025 9 10 18 0 0 59,
    claim_C9_minute_granularity.2.1 cex_primary cup_same_minute
      (DateTime.mk 2025 9 10 18 0 0) (DateTime.mk 2025 9 10 18 0 30)
      rfl rfl (by decide) (by decide) (by decide) (by decide) rfl rfl rfl rfl rfl,
    claim_C9_minute_granularity.2.2 cex_primary cex_secondary
      (DateTime.mk 2025 9 10 18 0 0) (DateTime.mk 2025 9 10 20 0 0)
      rfl rfl (by decide) (by decide) (by decide) (by decide) (by decide)
      rfl rfl rfl (by decide)⟩

/-- C10: every fixture in the merged output has a present start instant and hence
a present time key — the year filter excludes any dateless fixture in both
phases, so the dateless keep path of the dedup step is unreachable. -/
theorem claim_C10_no_dateless :
    ∀ (primary secondary : List Event) (e : Event), e ∈ merge_feeds primary secondary →
      e.begin.isSome = true ∧ (event_time_key e).isSome = true := by
  intro primary secondary e hmem
  obtain ⟨e₀, hlab, _, hyr⟩ := merge_feeds_sound primary secondary e hmem
  obtain ⟨dt, hb, _⟩ := passes_year_begin e₀ hyr
  subst hlab
  constructor
  · rw [label_event_begin, hb]
    rfl
  · rw [event_time_key_label, event_time_key_of e₀ dt hb]
    rfl

/-- C10 (witness): concrete instantiation on a one-fixture merge. -/
theorem claim_C10_witness :
    label_event cup_fixture ∈ merge_feeds [cup_fixture] [] ∧
    (label_event cup_fixture).begin.isSome = true ∧
    (event_time_key (label_event cup_fixture)).isSome = true :=
  ⟨by decide,
    (claim_C10_no_dateless [cup_fixture] [] (label_event cup_fixture) (by decide)).1,
    (claim_C10_no_dateless [cup_fixture] [] (label_event cup_fixture) (by decide)).2⟩

end NapoliCalendar
